import Mathlib

/-!
Shallow embedding of `src/pewpi-shared/machines/adapter.js` (class
`MachineAdapter`), the state-machine registry of the repository.

JavaScript `Map`s are modelled as association lists with JS `Map`
semantics: `Map.set` on an existing key overwrites the value in place
(keeping the key's original insertion position), and on a fresh key
appends at the end; iteration order is insertion order.  JS objects used
as context blobs are modelled the same way, with values drawn from `Int`
(the adapter never inspects context values, so the choice of value type
is immaterial).  JS exceptions are modelled with `Except String`.
`Date.now()` is modelled by an explicit `now : Nat` argument.
-/

namespace MachineAdapter

/-- Lookup in a JS `Map` modelled as an association list (first match). -/
def mapGet {α : Type} (m : List (String × α)) (k : String) : Option α :=
  match m with
  | [] => none
  | p :: rest => if p.1 = k then some p.2 else mapGet rest k

/-- JS `Map.set`: overwrite in place keeping position, else append. -/
def mapSet {α : Type} (m : List (String × α)) (k : String) (v : α) :
    List (String × α) :=
  match m with
  | [] => [(k, v)]
  | p :: rest => if p.1 = k then (k, v) :: rest else p :: mapSet rest k v

/-- JS `Map.delete`: remove the entry with the given key, if present. -/
def mapDelete {α : Type} (m : List (String × α)) (k : String) :
    List (String × α) :=
  match m with
  | [] => []
  | p :: rest => if p.1 = k then rest else p :: mapDelete rest k

/-- A machine context: a JS object, i.e. an ordered string-keyed record. -/
abbrev Ctx := List (String × Int)

/-- First-match lookup in a context object. -/
abbrev ctxGet (c : Ctx) (k : String) : Option Int := mapGet c k

/-- JS object spread `{...a, ...b}`: the keys of `a` in order, overridden
by `b` where `b` has the key, followed by the keys of `b` absent from
`a`. -/
def ctxMerge (a b : Ctx) : Ctx :=
  (a.map (fun p => match ctxGet b p.1 with
    | some v => (p.1, v)
    | none => p))
  ++ b.filter (fun p => (ctxGet a p.1).isNone)

/-- One record of `machine.history` (adapter.js lines 113-119). -/
structure HistEntry where
  fromState : String
  toState : String
  event : String
  payload : Option String
  timestamp : Nat
deriving DecidableEq, Repr

/-- The per-machine record built by `registerMachine` (adapter.js
lines 24-31). -/
structure Machine where
  id : String
  currentState : String
  states : Ctx
  context : Ctx
  history : List HistEntry
  created : Nat
deriving DecidableEq, Repr

/-- The record returned by a handler-valued transition: `state` is an
optional target label (`result.state`), `data` the optional freeform
notification data (`result.data`), `context` the optional context patch
(`result.context`).  `none` models an absent / `undefined` field. -/
structure HandlerResult where
  state : Option String
  data : Option Ctx
  context : Option Ctx

/-- A transition-table value: a literal target-state label or a handler
function of `(context, payload)`. -/
inductive Transition where
  | target (s : String)
  | handler (f : Ctx → Option String → HandlerResult)

/-- The object passed to each state-change callback (adapter.js
lines 127-134); handler `data` is kept in its own field. -/
structure ChangeData where
  fromState : String
  toState : String
  event : String
  payload : Option String
  context : Ctx
  data : Ctx

/-- A state-change callback; `lid` is its identity, `run` its body,
which may raise (modelled by `Except.error`). -/
structure Listener where
  lid : Nat
  run : ChangeData → Except String Unit

/-- The observable outcome of invoking one callback inside the
`try`/`catch` of `_notifyStateChange` (adapter.js lines 282-288):
`true` when the body completed, `false` when its error was caught and
logged.  Either way the iteration continues. -/
def runOk (l : Listener) (cd : ChangeData) : Bool :=
  match l.run cd with
  | .ok _ => true
  | .error _ => false

/-- The `MachineAdapter` instance state: three parallel maps created in
the constructor (adapter.js lines 7-11). -/
structure Adapter where
  machines : List (String × Machine)
  transitions : List (String × List (String × Transition))
  stateCallbacks : List (String × List Listener)

/-- The freshly constructed adapter (`new MachineAdapter()`). -/
def emptyAdapter : Adapter := ⟨[], [], []⟩

/-- `registerMachine`'s `config` argument: recognized fields, each
`none`/empty when absent. -/
structure Config where
  initialState : Option String
  states : Ctx
  context : Ctx
  transitions : Option (List (String × List (String × Transition)))

/-- A config with every field absent (`config = {}`). -/
def emptyConfig : Config := ⟨none, [], [], none⟩

/-- Evaluate `x || d` for a JS string-or-undefined `x` (both
`undefined` and the empty string are falsy). -/
def strOrDefault (x : Option String) (d : String) : String :=
  match x with
  | some s => if s = "" then d else s
  | none => d

/-- The fresh machine record built by `registerMachine` (adapter.js
lines 24-31). -/
def machineOfConfig (machineId : String) (config : Config) (now : Nat) :
    Machine :=
  { id := machineId,
    currentState := strOrDefault config.initialState "idle",
    states := config.states,
    context := config.context,
    history := [],
    created := now }

/-- `registerTransition(machineId, fromState, event, toStateOrHandler)`
(adapter.js lines 56-64): throws when the machine is not registered,
else stores the value under the string key `fromState + ":" + event`. -/
def registerTransition (a : Adapter) (machineId fromState event : String)
    (t : Transition) : Except String Adapter :=
  match mapGet a.transitions machineId with
  | none => .error ("Machine " ++ machineId ++ " not registered")
  | some machineTransitions =>
    .ok { a with transitions := (mapSet a.transitions machineId
        (mapSet machineTransitions (fromState ++ ":" ++ event) t)) }

/-- `registerMachine(machineId, config)` (adapter.js lines 19-47):
creates the machine record, resets all three per-id entries, then
registers every transition of `config.transitions`.  The inner
`registerTransition` calls cannot fail (the machine was just
registered), so the error branch is unreachable. -/
def registerMachine (a : Adapter) (machineId : String) (config : Config)
    (now : Nat) : Adapter :=
  let machine : Machine := machineOfConfig machineId config now
  let a1 : Adapter :=
    { machines := mapSet a.machines machineId machine,
      transitions := mapSet a.transitions machineId [],
      stateCallbacks := mapSet a.stateCallbacks machineId [] }
  match config.transitions with
  | none => a1
  | some ts =>
    ts.foldl (fun acc fromEntry =>
      fromEntry.2.foldl (fun acc2 evEntry =>
        match registerTransition acc2 machineId fromEntry.1 evEntry.1 evEntry.2 with
        | .ok a2 => a2
        | .error _ => acc2) acc) a1

/-- The result object returned by `send`; the failure result carries no
`context` field, modelled by `context = none`. -/
structure SendResult where
  success : Bool
  fromState : String
  toState : String
  event : String
  context : Option Ctx
deriving DecidableEq, Repr

/-- `send(machineId, event, payload)` (adapter.js lines 73-143): throws
for an unknown machine; returns the no-op failure result when no
transition matches `currentState + ":" + event`; otherwise resolves the
target state (running the handler when the transition is a function),
mutates the machine, appends to history, enforces the 100-entry cap,
and notifies the callbacks.  The third component of the result is the
notification log: each invoked callback's `lid` paired with whether its
body completed without raising (the `try`/`catch` of
`_notifyStateChange`, adapter.js lines 282-288, swallows the error and
continues). -/
def send (a : Adapter) (machineId event : String) (payload : Option String)
    (now : Nat) :
    Except String (Adapter × SendResult × List (Nat × Bool)) :=
  match mapGet a.machines machineId with
  | none => .error ("Machine " ++ machineId ++ " not found")
  | some machine =>
    let machineTransitions := (mapGet a.transitions machineId).getD []
    let key := machine.currentState ++ ":" ++ event
    match mapGet machineTransitions key with
    | none =>
      .ok (a,
        { success := false,
          fromState := machine.currentState,
          toState := machine.currentState,
          event := event,
          context := none }, [])
    | some transition =>
      let fromState := machine.currentState
      let resolved : String × Ctx × Ctx :=
        match transition with
        | .handler f =>
          let result := f machine.context payload
          let toState := strOrDefault result.state machine.currentState
          let transitionData := result.data.getD []
          let ctx1 :=
            match result.context with
            | some c => ctxMerge machine.context c
            | none => machine.context
          (toState, transitionData, ctx1)
        | .target s => (s, [], machine.context)
      let toState := resolved.1
      let transitionData := resolved.2.1
      let ctx1 := resolved.2.2
      let hist1 : List HistEntry := machine.history ++
        [{ fromState := fromState,
           toState := toState,
           event := event,
           payload := payload,
           timestamp := now }]
      let hist2 := if hist1.length > 100 then hist1.drop (hist1.length - 100)
        else hist1
      let machine2 : Machine :=
        { machine with currentState := toState, context := ctx1, history := hist2 }
      let a2 : Adapter := { a with machines := mapSet a.machines machineId machine2 }
      let callbacks := (mapGet a.stateCallbacks machineId).getD []
      let changeData : ChangeData :=
        { fromState := fromState,
          toState := toState,
          event := event,
          payload := payload,
          context := ctx1,
          data := transitionData }
      let log := callbacks.map (fun l => (l.lid, runOk l changeData))
      .ok (a2,
        { success := true,
          fromState := fromState,
          toState := toState,
          event := event,
          context := some ctx1 }, log)

/-- `getState(machineId)` (adapter.js lines 150-153). -/
def getState (a : Adapter) (machineId : String) : Option String :=
  (mapGet a.machines machineId).map Machine.currentState

/-- `getContext(machineId)` (adapter.js lines 160-163). -/
def getContext (a : Adapter) (machineId : String) : Option Ctx :=
  (mapGet a.machines machineId).map Machine.context

/-- `updateContext(machineId, updates)` (adapter.js lines 170-175). -/
def updateContext (a : Adapter) (machineId : String) (updates : Ctx) :
    Adapter :=
  match mapGet a.machines machineId with
  | none => a
  | some machine =>
    { a with machines := (mapSet a.machines machineId
        { machine with context := ctxMerge machine.context updates }) }

/-- `isInState(machineId, state)` (adapter.js lines 183-186). -/
def isInState (a : Adapter) (machineId state : String) : Bool :=
  match mapGet a.machines machineId with
  | none => false
  | some machine => machine.currentState = state

/-- `getHistory(machineId, limit)` (adapter.js lines 194-199):
`history.slice(-limit)`.  For `limit ≥ 1` this is the last
`min limit length` entries; for `limit = 0`, JS `slice(-0)` is
`slice(0)`, the whole array.  The declared default is 10. -/
def getHistory (a : Adapter) (machineId : String) (limit : Nat := 10) :
    List HistEntry :=
  match mapGet a.machines machineId with
  | none => []
  | some machine =>
    if limit = 0 then machine.history
    else machine.history.drop (machine.history.length - limit)

/-- `onStateChange(machineId, callback)` (adapter.js lines 206-211). -/
def onStateChange (a : Adapter) (machineId : String) (cb : Listener) :
    Adapter :=
  match mapGet a.stateCallbacks machineId with
  | none => a
  | some callbacks =>
    { a with stateCallbacks :=
        (mapSet a.stateCallbacks machineId (callbacks ++ [cb])) }

/-- `offStateChange(machineId, callback)` (adapter.js lines 218-226):
removes the first callback with the given identity, if any. -/
def offStateChange (a : Adapter) (machineId : String) (lid : Nat) : Adapter :=
  match mapGet a.stateCallbacks machineId with
  | none => a
  | some callbacks =>
    { a with stateCallbacks := (mapSet a.stateCallbacks machineId
          (match callbacks.findIdx? (fun l => l.lid = lid) with
           | some i => callbacks.eraseIdx i
           | none => callbacks)) }

/-- JS `key.split(':')[0]`: the part of the string before its first
colon (the whole string when there is none). -/
def splitFirst (s : String) : String :=
  ⟨s.data.takeWhile (fun c => c ≠ ':')⟩

/-- `reset(machineId, clearHistory)` (adapter.js lines 233-255): uses
the first transition key's prefix before `:` as the initial state,
`"idle"` when the table is empty; always empties the context; clears
history only when asked. -/
def reset (a : Adapter) (machineId : String) (clearHistory : Bool) : Adapter :=
  match mapGet a.machines machineId with
  | none => a
  | some machine =>
    let machineTransitions := mapGet a.transitions machineId
    let initialState :=
      match machineTransitions with
      | none => "idle"
      | some [] => "idle"
      | some (p :: _) => splitFirst p.1
    { a with machines := (mapSet a.machines machineId
        { machine with
            currentState := initialState,
            context := [],
            history := if clearHistory then [] else machine.history }) }

/-- `unregisterMachine(machineId)` (adapter.js lines 261-265). -/
def unregisterMachine (a : Adapter) (machineId : String) : Adapter :=
  { machines := mapDelete a.machines machineId,
    transitions := mapDelete a.transitions machineId,
    stateCallbacks := mapDelete a.stateCallbacks machineId }

/-- `getMachines()` (adapter.js lines 271-273). -/
def getMachines (a : Adapter) : List String := a.machines.map Prod.fst

/-- One call of the adapter's mutating API surface.  A JS call that
throws does so before any mutation (`registerTransition` line 59,
`send` line 76), so the adapter state after a throwing call equals the
state before it. -/
inductive Op where
  | register (machineId : String) (config : Config) (now : Nat)
  | regTransition (machineId fromState event : String) (t : Transition)
  | sendEvent (machineId event : String) (payload : Option String) (now : Nat)
  | updateCtx (machineId : String) (updates : Ctx)
  | onChange (machineId : String) (cb : Listener)
  | offChange (machineId : String) (lid : Nat)
  | resetMachine (machineId : String) (clearHistory : Bool)
  | unregister (machineId : String)

/-- The adapter state after one API call (unchanged when the call
throws). -/
def applyOp (a : Adapter) (op : Op) : Adapter :=
  match op with
  | .register machineId config now => registerMachine a machineId config now
  | .regTransition machineId fromState event t =>
    match registerTransition a machineId fromState event t with
    | .ok a2 => a2
    | .error _ => a
  | .sendEvent machineId event payload now =>
    match send a machineId event payload now with
    | .ok (a2, _, _) => a2
    | .error _ => a
  | .updateCtx machineId updates => updateContext a machineId updates
  | .onChange machineId cb => onStateChange a machineId cb
  | .offChange machineId lid => offStateChange a machineId lid
  | .resetMachine machineId clearHistory => reset a machineId clearHistory
  | .unregister machineId => unregisterMachine a machineId

/-- Every registered machine's history holds at most 100 records. -/
def histOk (a : Adapter) : Bool :=
  a.machines.all (fun p => p.2.history.length ≤ 100)

/-- The result object and notification log of a `send` call, `none`
when the call throws. -/
def sendOutcome (a : Adapter) (machineId event : String)
    (payload : Option String) (now : Nat) :
    Option (SendResult × List (Nat × Bool)) :=
  match send a machineId event payload now with
  | .ok (_, r, log) => some (r, log)
  | .error _ => none

/-- The machine's history after a `send` call, `none` when the call
throws or the machine disappeared. -/
def sendHistories (a : Adapter) (machineId event : String)
    (payload : Option String) (now : Nat) : Option (List HistEntry) :=
  match send a machineId event payload now with
  | .ok (a2, _, _) => (mapGet a2.machines machineId).map Machine.history
  | .error _ => none

/-- The machine's context after a `send` call, `none` when the call
throws or the machine disappeared. -/
def sendContext (a : Adapter) (machineId event : String)
    (payload : Option String) (now : Nat) : Option Ctx :=
  match send a machineId event payload now with
  | .ok (a2, _, _) => (mapGet a2.machines machineId).map Machine.context
  | .error _ => none

/-- The `toState` reported by a `send` call, `none` when the call
throws. -/
def sendToState (a : Adapter) (machineId event : String)
    (payload : Option String) (now : Nat) : Option String :=
  match send a machineId event payload now with
  | .ok (_, r, _) => some r.toState
  | .error _ => none

/-- The flat transition table that `registerMachine` builds from the
nested `config.transitions` object, independently of any previous
registration of the identifier. -/
def tableOfConfig (config : Config) : List (String × Transition) :=
  match config.transitions with
  | none => []
  | some ts =>
    ts.foldl (fun acc fromEntry =>
      fromEntry.2.foldl (fun acc2 evEntry =>
        mapSet acc2 (fromEntry.1 ++ ":" ++ evEntry.1) evEntry.2) acc) []

/-! Concrete fixtures evaluated by the witness and counterexample
theorems below. -/

/-- A generic history record. -/
def fixEntry : HistEntry := ⟨"s0", "s0", "TICK", none, 1⟩

def fixMachineC1 : Machine :=
  { id := "m", currentState := "idle", states := [], context := [("k", 3)],
    history := [fixEntry], created := 0 }

def fixAdapterC1 : Adapter :=
  { machines := [("m", fixMachineC1)], transitions := [("m", [])],
    stateCallbacks := [("m", [])] }

def fixMachineC2 : Machine :=
  { id := "m", currentState := "s0", states := [], context := [],
    history := List.replicate 100 fixEntry, created := 0 }

def fixAdapterC2 : Adapter :=
  { machines := [("m", fixMachineC2)],
    transitions := [("m", [("s0:GO", .target "run")])],
    stateCallbacks := [("m", [])] }

def fixHandlerC4 : Ctx → Option String → HandlerResult :=
  fun _ _ => { state := none, data := none, context := some [("y", 5), ("z", 9)] }

def fixHandlerC4b : Ctx → Option String → HandlerResult :=
  fun _ _ => { state := some "paid", data := none, context := none }

def fixMachineC4 : Machine :=
  { id := "m", currentState := "cart", states := [],
    context := [("x", 1), ("y", 2)], history := [], created := 0 }

def fixAdapterC4 : Adapter :=
  { machines := [("m", fixMachineC4)],
    transitions := [("m", [("cart:PAY", .handler fixHandlerC4)])],
    stateCallbacks := [("m", [])] }

def fixAdapterC4b : Adapter :=
  { machines := [("m", fixMachineC4)],
    transitions := [("m", [("cart:PAY", .handler fixHandlerC4b)])],
    stateCallbacks := [("m", [])] }

def fixMachineC5 : Machine :=
  { id := "m", currentState := "run", states := [], context := [("a", 1)],
    history := [fixEntry], created := 0 }

def fixAdapterC5 : Adapter :=
  { machines := [("m", fixMachineC5)],
    transitions := [("m", [("run:STOP", .target "idle")])],
    stateCallbacks := [("m", [⟨4, fun _ => .ok ()⟩])] }

def fixListenerOld : Listener := ⟨7, fun _ => .ok ()⟩

def fixCfgA : Config :=
  { initialState := some "locked", states := [], context := [],
    transitions := some [("locked", [("COIN", .target "unlocked")])] }

def fixCfgB : Config :=
  { initialState := some "off", states := [], context := [("v", 1)],
    transitions := some [("off", [("ON", .target "on")])] }

def fixAdapterC6 : Adapter :=
  onStateChange (registerMachine emptyAdapter "m" fixCfgA 0) "m" fixListenerOld

def fixMachineC7 : Machine :=
  { id := "m", currentState := "idle", states := [], context := [],
    history := [], created := 0 }

def fixListenerBoom : Listener := ⟨1, fun _ => .error "boom"⟩

def fixListenerTwo : Listener := ⟨2, fun _ => .ok ()⟩

def fixAdapterC7 : Adapter :=
  { machines := [("m", fixMachineC7)],
    transitions := [("m", [("idle:GO", .target "run")])],
    stateCallbacks := [("m", [fixListenerBoom, fixListenerTwo])] }

def fixOpsC8 : List Op :=
  [.register "m" { initialState := some "x", states := [], context := [("k", 1)],
                   transitions := none } 0,
   .regTransition "m" "a:b" "go" (.target "z")]

def fixAdapterC8 : Adapter := fixOpsC8.foldl applyOp emptyAdapter

def fixOpsC8b : List Op :=
  [.register "m" { initialState := some "start", states := [], context := [],
                   transitions := some [("start", [("go", .target "s2")])] } 0,
   .sendEvent "m" "go" none 2,
   .updateCtx "m" [("a", 2)]]

def fixAdapterC8b : Adapter := fixOpsC8b.foldl applyOp emptyAdapter

/-- The machine stored in `fixAdapterC8b` just before the reset. -/
def fixMachineC8b : Machine :=
  { id := "m", currentState := "s2", states := [], context := [("a", 2)],
    history := [⟨"start", "s2", "go", none, 2⟩], created := 0 }

def fixOpsC9 : List Op :=
  [.register "m" { initialState := some "a:b", states := [], context := [],
                   transitions := none } 0,
   .regTransition "m" "a:b" "c" (.target "s1"),
   .regTransition "m" "a" "b:c" (.target "s2")]

def fixAdapterC9 : Adapter := fixOpsC9.foldl applyOp emptyAdapter

def fixAdapterC9b : Adapter :=
  applyOp (registerMachine emptyAdapter "m" emptyConfig 0)
    (.regTransition "m" "idle" "GO" (.target "run"))

def fixMachineC10 : Machine :=
  { id := "m", currentState := "s3", states := [], context := [],
    history := [⟨"s0", "s1", "A", none, 1⟩, ⟨"s1", "s2", "B", none, 2⟩,
                ⟨"s2", "s3", "C", none, 3⟩], created := 0 }

def fixAdapterC10 : Adapter :=
  { machines := [("m", fixMachineC10)], transitions := [("m", [])],
    stateCallbacks := [("m", [])] }

/-! Helper lemmas about the association-list model of JS `Map`s and
object spread. -/

theorem mapGet_cons_eq {α : Type} (p : String × α) (rest : List (String × α))
    (k : String) (h : p.1 = k) : mapGet (p :: rest) k = some p.2 := by
  simp [mapGet, h]

theorem mapGet_cons_ne {α : Type} (p : String × α) (rest : List (String × α))
    (k : String) (h : ¬p.1 = k) : mapGet (p :: rest) k = mapGet rest k := by
  simp [mapGet, h]

theorem mapSet_cons_eq {α : Type} (p : String × α) (rest : List (String × α))
    (k : String) (v : α) (h : p.1 = k) :
    mapSet (p :: rest) k v = (k, v) :: rest := by
  simp [mapSet, h]

theorem mapSet_cons_ne {α : Type} (p : String × α) (rest : List (String × α))
    (k : String) (v : α) (h : ¬p.1 = k) :
    mapSet (p :: rest) k v = p :: mapSet rest k v := by
  simp [mapSet, h]

theorem mapGet_mapSet_self {α : Type} (m : List (String × α)) (k : String)
    (v : α) : mapGet (mapSet m k v) k = some v := by
  induction m with
  | nil => simp [mapSet, mapGet]
  | cons p rest ih =>
    by_cases h : p.1 = k
    · rw [mapSet_cons_eq p rest k v h, mapGet_cons_eq _ _ _ rfl]
    · rw [mapSet_cons_ne p rest k v h, mapGet_cons_ne _ _ _ h, ih]

theorem mapGet_mapSet_ne {α : Type} (m : List (String × α)) (k k' : String)
    (v : α) (h : k ≠ k') : mapGet (mapSet m k v) k' = mapGet m k' := by
  induction m with
  | nil =>
    show mapGet [(k, v)] k' = none
    rw [mapGet_cons_ne _ _ _ h]
    rfl
  | cons p rest ih =>
    by_cases hp : p.1 = k
    · rw [mapSet_cons_eq p rest k v hp, mapGet_cons_ne (k, v) rest k' h,
          mapGet_cons_ne p rest k' (by rw [hp]; exact h)]
    · rw [mapSet_cons_ne p rest k v hp]
      by_cases hp' : p.1 = k'
      · rw [mapGet_cons_eq _ _ _ hp', mapGet_cons_eq _ _ _ hp']
      · rw [mapGet_cons_ne _ _ _ hp', mapGet_cons_ne _ _ _ hp', ih]

theorem mapGet_mem {α : Type} {m : List (String × α)} {k : String} {v : α}
    (h : mapGet m k = some v) : (k, v) ∈ m := by
  induction m with
  | nil => simp [mapGet] at h
  | cons p rest ih =>
    obtain ⟨pk, pv⟩ := p
    by_cases hp : pk = k
    · simp [mapGet, hp] at h
      simp [hp, h]
    · simp [mapGet, hp] at h
      exact List.mem_cons_of_mem _ (ih h)

theorem mem_mapSet {α : Type} {m : List (String × α)} {k : String} {v : α}
    {q : String × α} (h : q ∈ mapSet m k v) : q = (k, v) ∨ q ∈ m := by
  induction m with
  | nil => simp [mapSet] at h; simp [h]
  | cons p rest ih =>
    by_cases hp : p.1 = k
    · simp [mapSet, hp] at h
      rcases h with h | h
      · exact Or.inl h
      · exact Or.inr (List.mem_cons_of_mem _ h)
    · simp [mapSet, hp] at h
      rcases h with h | h
      · exact Or.inr (by simp [h])
      · rcases ih h with h2 | h2
        · exact Or.inl h2
        · exact Or.inr (List.mem_cons_of_mem _ h2)

theorem mem_mapDelete {α : Type} {m : List (String × α)} {k : String}
    {q : String × α} (h : q ∈ mapDelete m k) : q ∈ m := by
  induction m with
  | nil => simp [mapDelete] at h
  | cons p rest ih =>
    by_cases hp : p.1 = k
    · simp [mapDelete, hp] at h
      exact List.mem_cons_of_mem _ h
    · simp [mapDelete, hp] at h
      rcases h with h | h
      · simp [h]
      · exact List.mem_cons_of_mem _ (ih h)

theorem mapGet_append {α : Type} (l1 l2 : List (String × α)) (k : String) :
    mapGet (l1 ++ l2) k =
      match mapGet l1 k with
      | some v => some v
      | none => mapGet l2 k := by
  induction l1 with
  | nil => simp [mapGet]
  | cons p rest ih =>
    by_cases h : p.1 = k <;> simp [mapGet, h, ih]

theorem mapGet_filter {α : Type} (g : String × α → Bool)
    (l : List (String × α)) (k : String) (h : ∀ p, p.1 = k → g p = true) :
    mapGet (l.filter g) k = mapGet l k := by
  induction l with
  | nil => rfl
  | cons p rest ih =>
    by_cases hk : p.1 = k
    · rw [List.filter_cons, h p hk]
      simp only [ite_true]
      rw [mapGet_cons_eq _ _ _ hk, mapGet_cons_eq _ _ _ hk]
    · rw [List.filter_cons]
      by_cases hg : g p
      · rw [if_pos hg, mapGet_cons_ne _ _ _ hk, mapGet_cons_ne _ _ _ hk, ih]
      · rw [if_neg hg, mapGet_cons_ne _ _ _ hk, ih]

theorem mapGet_map_keyed {α : Type} (h : String × α → String × α)
    (hk : ∀ p, (h p).1 = p.1) (l : List (String × α)) (k : String) :
    mapGet (l.map h) k = (mapGet l k).map (fun v => (h (k, v)).2) := by
  induction l with
  | nil => simp [mapGet]
  | cons p rest ih =>
    obtain ⟨pk, pv⟩ := p
    rw [List.map_cons]
    by_cases hp : pk = k
    · subst hp
      rw [mapGet_cons_eq _ _ _ (hk (pk, pv)), mapGet_cons_eq _ _ _ rfl]
      rfl
    · rw [mapGet_cons_ne _ _ _ (by rw [hk (pk, pv)]; exact hp),
          mapGet_cons_ne _ _ _ hp, ih]

theorem ctxGet_ctxMerge (a b : Ctx) (k : String) :
    ctxGet (ctxMerge a b) k =
      match ctxGet b k with
      | some v => some v
      | none => ctxGet a k := by
  show mapGet (ctxMerge a b) k = _
  unfold ctxMerge
  rw [mapGet_append]
  rw [mapGet_map_keyed _ (fun p => by
    show (match mapGet b p.1 with
          | some v => (p.1, v)
          | none => p).1 = p.1
    cases hb : mapGet b p.1 <;> simp)]
  cases ha : mapGet a k with
  | some v =>
    cases hb : mapGet b k <;> simp [hb, ctxGet, ha]
  | none =>
    rw [mapGet_filter _ _ _ (fun p hp => by
      show (mapGet a p.1).isNone = true
      rw [hp, ha]
      rfl)]
    cases hb : mapGet b k <;> simp [hb, ctxGet, ha]

/-! Claim theorems. -/

/-- Claim C1: for every registered machine, `send` with no transition
table entry for `(currentState, event)` returns `success = false` with
`fromState = toState = currentState`, leaves the whole adapter (machine
state, context, history) unchanged, and invokes no listener (empty
notification log). -/
theorem send_missing_transition_noop (a : Adapter)
    (machineId event : String) (payload : Option String) (now : Nat)
    (m : Machine) (hm : mapGet a.machines machineId = some m)
    (ht : mapGet ((mapGet a.transitions machineId).getD [])
      (m.currentState ++ ":" ++ event) = none) :
    send a machineId event payload now =
      .ok (a, { success := false, fromState := m.currentState,
                toState := m.currentState, event := event,
                context := none }, []) := by
  unfold send
  rw [hm]
  simp only [ht]

/-- Witness for C1 at a concrete adapter whose machine has no
transitions registered. -/
theorem send_missing_transition_noop_witness :
    send fixAdapterC1 "m" "GO" none 5 =
      .ok (fixAdapterC1,
        { success := false, fromState := "idle", toState := "idle",
          event := "GO", context := none }, []) :=
  send_missing_transition_noop fixAdapterC1 "m" "GO" none 5 fixMachineC1
    rfl rfl

/-- Claim C3 counterexample: `send` against an unregistered identifier
raises (`Machine m not found`) rather than failing softly with a
null-equivalent or `success = false` result. -/
theorem send_unknown_raises_cex :
    send emptyAdapter "m" "GO" none 0 =
      .error "Machine m not found" := rfl

/-- Claim C3 (amended): for every identifier with no registered
machine, `send` throws a `Machine ... not found` error; it never
returns a result object. -/
theorem send_unknown_throws (a : Adapter) (machineId event : String)
    (payload : Option String) (now : Nat)
    (h : mapGet a.machines machineId = none) :
    send a machineId event payload now =
      .error ("Machine " ++ machineId ++ " not found") := by
  unfold send
  rw [h]

/-- Witness for the amended C3 on the freshly constructed adapter. -/
theorem send_unknown_throws_witness :
    send emptyAdapter "nope" "GO" none 3 =
      .error ("Machine " ++ "nope" ++ " not found") :=
  send_unknown_throws emptyAdapter "nope" "GO" none 3 rfl

/-- Claim C10 counterexample: with one history record, `getHistory` with
`limit = 0` returns the whole history (JS `slice(-0)` is `slice(0)`),
not `min 0 length = 0` records as claimed. -/
theorem getHistory_zero_cex :
    getHistory fixAdapterC10 "m" 0 = fixMachineC10.history ∧
    getHistory fixAdapterC10 "m" 0 ≠ [] := by
  refine ⟨rfl, ?_⟩
  decide

/-- Claim C10 (amended): for `limit ≥ 1`, `getHistory` returns the
`min limit length` most recent records, oldest-first (the order-keeping
suffix of the history); for `limit = 0` it returns the entire history;
the declared default is 10; for an unknown identifier it returns the
empty sequence. -/
theorem getHistory_spec (a : Adapter) (machineId : String) (limit : Nat)
    (m : Machine) (hm : mapGet a.machines machineId = some m) :
    (1 ≤ limit →
      getHistory a machineId limit =
        m.history.drop (m.history.length - limit) ∧
      (getHistory a machineId limit).length = min limit m.history.length) ∧
    getHistory a machineId 0 = m.history ∧
    getHistory a machineId = getHistory a machineId 10 ∧
    (∀ b : Adapter, ∀ mid : String, ∀ lim : Nat,
      mapGet b.machines mid = none → getHistory b mid lim = []) := by
  refine ⟨?_, ?_, rfl, ?_⟩
  · intro hl
    have hz : ¬limit = 0 := by omega
    constructor
    · unfold getHistory
      simp only [hm]
      rw [if_neg hz]
    · unfold getHistory
      simp only [hm]
      rw [if_neg hz, List.length_drop]
      omega
  · unfold getHistory
    simp only [hm]
    simp
  · intro b mid lim hb
    unfold getHistory
    simp only [hb]

/-- Witness for the amended C10: three history records, limit 2 keeps
the most recent two in order, limit 0 returns all three. -/
theorem getHistory_spec_witness :
    (1 ≤ 2 ∧
      getHistory fixAdapterC10 "m" 2 =
        fixMachineC10.history.drop (fixMachineC10.history.length - 2) ∧
      (getHistory fixAdapterC10 "m" 2).length =
        min 2 fixMachineC10.history.length) ∧
    getHistory fixAdapterC10 "m" 0 = fixMachineC10.history :=
  have h := getHistory_spec fixAdapterC10 "m" 2 fixMachineC10 (by decide)
  ⟨⟨by decide, (h.1 (by decide)).1, (h.1 (by decide)).2⟩, h.2.1⟩

theorem takeWhile_cons_of_pos {p : Char → Bool} {c : Char} {l : List Char}
    (h : p c = true) : (c :: l).takeWhile p = c :: l.takeWhile p := by
  simp [List.takeWhile_cons, h]

/-- A list of characters free of colons is untouched by `takeWhile` up
to the first appended colon. -/
theorem takeWhile_append_colon (l1 l2 : List Char)
    (h : ∀ c ∈ l1, c ≠ ':') :
    (l1 ++ ':' :: l2).takeWhile (fun c => c ≠ ':') = l1 := by
  induction l1 with
  | nil => simp [List.takeWhile_cons]
  | cons c cs ih =>
    have hc : c ≠ ':' := h c (List.mem_cons_self c cs)
    rw [List.cons_append, takeWhile_cons_of_pos (by simp [hc]),
      ih (fun x hx => h x (List.mem_cons_of_mem c hx))]

/-- `key.split(':')[0]` recovers `fromState` from the transition key
whenever `fromState` contains no colon. -/
theorem splitFirst_key (f e : String)
    (h : f.data.all (fun c => c ≠ ':') = true) :
    splitFirst (f ++ ":" ++ e) = f := by
  unfold splitFirst
  have hdata : (f ++ ":" ++ e).data = f.data ++ ':' :: e.data := by
    rw [String.data_append, String.data_append]
    simp
  rw [hdata, takeWhile_append_colon _ _ (fun c hc =>
    of_decide_eq_true (List.all_eq_true.mp h c hc))]

/-- Claim C8 counterexample: with the single transition registered for
the pair `("a:b", "go")` (key `a:b:go`), `reset` sets the state to
`"a"`, not to the first transition's `fromState` `"a:b"`. -/
theorem reset_first_fromState_cex :
    getState (reset fixAdapterC8 "m" false) "m" = some "a" ∧
    ("a" : String) ≠ "a:b" := by
  refine ⟨by decide, by decide⟩

/-- Claim C8 (amended): `reset` sets `currentState` to the portion of
the first transition-table key (in insertion order) before its first
colon — which equals that transition's `fromState` whenever the
`fromState` contains no colon — or to `"idle"` when the table is empty;
it always empties the context, and clears the history iff
`clearHistory` is true. -/
theorem reset_spec (a : Adapter) (machineId : String) (clearHistory : Bool)
    (m : Machine) (hm : mapGet a.machines machineId = some m) :
    ((mapGet a.transitions machineId).getD [] = [] →
      getState (reset a machineId clearHistory) machineId = some "idle") ∧
    (∀ f e : String, ∀ t : Transition, ∀ rest : List (String × Transition),
      mapGet a.transitions machineId = some ((f ++ ":" ++ e, t) :: rest) →
      f.data.all (fun c => c ≠ ':') = true →
      getState (reset a machineId clearHistory) machineId = some f) ∧
    getContext (reset a machineId clearHistory) machineId = some [] ∧
    (mapGet (reset a machineId clearHistory).machines machineId).map
        Machine.history = some (if clearHistory then [] else m.history) := by
  refine ⟨?_, ?_, ?_, ?_⟩
  · intro h0
    unfold reset
    simp only [hm]
    cases htr : mapGet a.transitions machineId with
    | none =>
      simp only [htr]
      unfold getState
      rw [mapGet_mapSet_self]
      rfl
    | some tbl =>
      rw [htr] at h0
      simp only [Option.getD_some] at h0
      subst h0
      simp only [htr]
      unfold getState
      rw [mapGet_mapSet_self]
      rfl
  · intro f e t rest htr hfree
    unfold reset
    simp only [hm, htr]
    unfold getState
    rw [mapGet_mapSet_self]
    simp [splitFirst_key f e hfree]
  · unfold reset
    simp only [hm]
    cases htr : mapGet a.transitions machineId with
    | none =>
      simp only [htr]
      unfold getContext
      rw [mapGet_mapSet_self]
      rfl
    | some tbl =>
      cases tbl <;>
        · simp only [htr]
          unfold getContext
          rw [mapGet_mapSet_self]
          rfl
  · unfold reset
    simp only [hm]
    cases htr : mapGet a.transitions machineId with
    | none =>
      simp only [htr]
      rw [mapGet_mapSet_self]
      rfl
    | some tbl =>
      cases tbl <;>
        · simp only [htr]
          rw [mapGet_mapSet_self]
          rfl

/-- Witness for the amended C8 at a concrete machine registered with
the colon-free transition `("start", "go")`, after one transition and a
context update: reset returns the state to `"start"`, empties the
context, and keeps the single history record. -/
theorem reset_spec_witness :
    getState (reset fixAdapterC8b "m" false) "m" = some "start" ∧
    getContext (reset fixAdapterC8b "m" false) "m" = some [] ∧
    (mapGet (reset fixAdapterC8b "m" false).machines "m").map
        Machine.history = some fixMachineC8b.history :=
  have h := reset_spec fixAdapterC8b "m" false fixMachineC8b (by decide)
  ⟨h.2.1 "start" "go" (.target "s2") [] rfl (by decide), h.2.2.1, h.2.2.2⟩

/-- Two colon-free prefixes followed by a colon split a character list
uniquely. -/
theorem append_colon_inj : ∀ l1 l2 r1 r2 : List Char,
    (∀ c ∈ l1, c ≠ ':') → (∀ c ∈ l2, c ≠ ':') →
    l1 ++ ':' :: r1 = l2 ++ ':' :: r2 → l1 = l2 ∧ r1 = r2 := by
  intro l1
  induction l1 with
  | nil =>
    intro l2 r1 r2 h1 h2 h
    cases l2 with
    | nil => simpa using h
    | cons d ds =>
      rw [List.nil_append, List.cons_append] at h
      injection h with hd _
      exact absurd hd.symm (h2 d (List.mem_cons_self d ds))
  | cons c cs ih =>
    intro l2 r1 r2 h1 h2 h
    cases l2 with
    | nil =>
      rw [List.cons_append, List.nil_append] at h
      injection h with hd _
      exact absurd hd (h1 c (List.mem_cons_self c cs))
    | cons d ds =>
      rw [List.cons_append, List.cons_append] at h
      injection h with hd hrest
      obtain ⟨hl, hr⟩ := ih ds r1 r2
        (fun x hx => h1 x (List.mem_cons_of_mem c hx))
        (fun x hx => h2 x (List.mem_cons_of_mem d hx)) hrest
      exact ⟨by rw [hd, hl], hr⟩

/-- For colon-free `fromState` labels, the flat key
`fromState ++ ":" ++ event` determines the pair uniquely. -/
theorem key_inj (f1 e1 f2 e2 : String)
    (h1 : f1.data.all (fun c => c ≠ ':') = true)
    (h2 : f2.data.all (fun c => c ≠ ':') = true) :
    f1 ++ ":" ++ e1 = f2 ++ ":" ++ e2 ↔ (f1 = f2 ∧ e1 = e2) := by
  constructor
  · intro h
    have hd := congrArg String.data h
    rw [String.data_append, String.data_append, String.data_append,
      String.data_append] at hd
    simp only [List.append_assoc] at hd
    have hd2 : f1.data ++ ':' :: e1.data = f2.data ++ ':' :: e2.data := by
      simpa using hd
    obtain ⟨hl, hr⟩ := append_colon_inj f1.data f2.data e1.data e2.data
      (fun c hc => of_decide_eq_true (List.all_eq_true.mp h1 c hc))
      (fun c hc => of_decide_eq_true (List.all_eq_true.mp h2 c hc)) hd2
    exact ⟨congrArg String.mk hl, congrArg String.mk hr⟩
  · intro h
    rw [h.1, h.2]

/-- Claim C9 counterexample: after registering transitions for the two
distinct pairs `("a:b", "c")` and `("a", "b:c")`, the machine's
transition table holds a single entry (the keys collide on the string
`a:b:c`), and sending event `"c"` from state `"a:b"` lands in the state
registered for the other pair. -/
theorem transition_key_collision_cex :
    (mapGet fixAdapterC9.transitions "m").map List.length = some 1 ∧
    sendToState fixAdapterC9 "m" "c" none 9 = some "s2" := by
  refine ⟨by decide, by decide⟩

/-- Claim C9 (amended): the transition table is keyed by the
concatenated string `fromState ++ ":" ++ event`: `registerTransition`
creates or overwrites exactly that string key's entry and leaves every
other key's entry unchanged, and for fromStates containing no colon two
distinct pairs always denote two distinct keys; pairs whose
concatenations coincide (possible when labels contain colons) denote
the same entry. -/
theorem registerTransition_keying (a : Adapter) (machineId f1 e1 : String)
    (t : Transition)
    (h : (mapGet a.transitions machineId).isSome = true) :
    mapGet ((mapGet (applyOp a (.regTransition machineId f1 e1 t)).transitions
        machineId).getD []) (f1 ++ ":" ++ e1) = some t ∧
    (∀ f2 e2 : String, f1 ++ ":" ++ e1 ≠ f2 ++ ":" ++ e2 →
      mapGet ((mapGet (applyOp a (.regTransition machineId f1 e1 t)).transitions
          machineId).getD []) (f2 ++ ":" ++ e2) =
        mapGet ((mapGet a.transitions machineId).getD []) (f2 ++ ":" ++ e2)) ∧
    (∀ f2 e2 : String, f1.data.all (fun c => c ≠ ':') = true →
      f2.data.all (fun c => c ≠ ':') = true →
      ((f1 ++ ":" ++ e1 = f2 ++ ":" ++ e2) ↔ (f1 = f2 ∧ e1 = e2))) := by
  cases htbl : mapGet a.transitions machineId with
  | none => rw [htbl] at h; simp at h
  | some tbl =>
    have happ : applyOp a (.regTransition machineId f1 e1 t) =
        { a with transitions := (mapSet a.transitions machineId
            (mapSet tbl (f1 ++ ":" ++ e1) t)) } := by
      unfold applyOp registerTransition
      simp only [htbl]
    refine ⟨?_, ?_, ?_⟩
    · rw [happ]
      show mapGet ((mapGet (mapSet a.transitions machineId
          (mapSet tbl (f1 ++ ":" ++ e1) t)) machineId).getD [])
          (f1 ++ ":" ++ e1) = some t
      rw [mapGet_mapSet_self, Option.getD_some, mapGet_mapSet_self]
    · intro f2 e2 hne
      rw [happ]
      show mapGet ((mapGet (mapSet a.transitions machineId
          (mapSet tbl (f1 ++ ":" ++ e1) t)) machineId).getD [])
          (f2 ++ ":" ++ e2) = _
      rw [mapGet_mapSet_self, Option.getD_some,
        mapGet_mapSet_ne _ _ _ _ hne, Option.getD_some]
    · intro f2 e2 hf1 hf2
      exact key_inj f1 e1 f2 e2 hf1 hf2

/-- Witness for the amended C9: registering `("idle", "GO")` on a fresh
machine stores exactly the key `idle:GO`, leaves every other key (here
`stop:GO`) untouched, and two colon-free pairs with different
fromStates have distinct keys. -/
theorem registerTransition_keying_witness :
    mapGet ((mapGet fixAdapterC9b.transitions "m").getD [])
      ("idle" ++ ":" ++ "GO") = some (.target "run") ∧
    mapGet ((mapGet fixAdapterC9b.transitions "m").getD [])
      ("stop" ++ ":" ++ "GO") =
      mapGet ((mapGet (registerMachine emptyAdapter "m" emptyConfig
          0).transitions "m").getD []) ("stop" ++ ":" ++ "GO") ∧
    (("idle" ++ ":" ++ "GO" = "stop" ++ ":" ++ "GO") ↔
      (("idle" : String) = "stop" ∧ ("GO" : String) = "GO")) :=
  have h := registerTransition_keying
    (registerMachine emptyAdapter "m" emptyConfig 0) "m" "idle" "GO"
    (.target "run") (by decide)
  ⟨h.1, h.2.1 "stop" "GO" (by decide), h.2.2 "stop" "GO" (by decide) (by decide)⟩

/-- Claim C5: `updateContext` shallow-merges the patch into the
machine's context (patch keys win, other existing keys survive) and
changes nothing else: same `currentState`, same history (no record
appended), transition table and listener lists untouched (and since in
this embedding listeners are only ever run inside `send`'s notification
step, no listener is invoked), and other machines unchanged. -/
theorem updateContext_frame (a : Adapter) (machineId : String)
    (updates : Ctx) (m : Machine)
    (hm : mapGet a.machines machineId = some m) :
    getContext (updateContext a machineId updates) machineId =
      some (ctxMerge m.context updates) ∧
    (∀ k, ctxGet (ctxMerge m.context updates) k =
      match ctxGet updates k with
      | some v => some v
      | none => ctxGet m.context k) ∧
    getState (updateContext a machineId updates) machineId =
      some m.currentState ∧
    (mapGet (updateContext a machineId updates).machines machineId).map
        Machine.history = some m.history ∧
    (updateContext a machineId updates).transitions = a.transitions ∧
    (updateContext a machineId updates).stateCallbacks = a.stateCallbacks ∧
    (∀ mid : String, machineId ≠ mid →
      mapGet (updateContext a machineId updates).machines mid =
        mapGet a.machines mid) := by
  have hu : updateContext a machineId updates =
      { a with machines := (mapSet a.machines machineId
          { m with context := ctxMerge m.context updates }) } := by
    unfold updateContext
    simp only [hm]
  refine ⟨?_, fun k => ctxGet_ctxMerge m.context updates k, ?_, ?_, ?_, ?_, ?_⟩
  · rw [hu]
    unfold getContext
    rw [mapGet_mapSet_self]
    rfl
  · rw [hu]
    unfold getState
    rw [mapGet_mapSet_self]
    rfl
  · rw [hu]
    show (mapGet (mapSet a.machines machineId
        { m with context := ctxMerge m.context updates }) machineId).map
        Machine.history = some m.history
    rw [mapGet_mapSet_self]
    rfl
  · rw [hu]
  · rw [hu]
  · intro mid hmid
    rw [hu]
    show mapGet (mapSet a.machines machineId
        { m with context := ctxMerge m.context updates }) mid =
      mapGet a.machines mid
    rw [mapGet_mapSet_ne _ _ _ _ hmid]

/-- Witness for C5 at a concrete machine with context `a := 1`, one
history record and one registered listener. -/
theorem updateContext_frame_witness :
    getContext (updateContext fixAdapterC5 "m" [("b", 7)]) "m" =
      some (ctxMerge fixMachineC5.context [("b", 7)]) ∧
    getState (updateContext fixAdapterC5 "m" [("b", 7)]) "m" = some "run" ∧
    (mapGet (updateContext fixAdapterC5 "m" [("b", 7)]).machines "m").map
        Machine.history = some fixMachineC5.history ∧
    (updateContext fixAdapterC5 "m" [("b", 7)]).stateCallbacks =
      fixAdapterC5.stateCallbacks :=
  have h := updateContext_frame fixAdapterC5 "m" [("b", 7)] fixMachineC5
    (by decide)
  ⟨h.1, h.2.2.1, h.2.2.2.1, h.2.2.2.2.2.1⟩

/-- Claim C4: for a handler-valued transition matching
`(currentState, event)`: a result with no `context` field leaves the
machine's context unchanged; a result with a context patch
shallow-merges it (patch keys take the patch's value, other existing
keys keep theirs); a result with no `state` field targets the unchanged
current state. -/
theorem send_handler_semantics (a : Adapter) (machineId event : String)
    (payload : Option String) (now : Nat) (m : Machine)
    (f : Ctx → Option String → HandlerResult)
    (hm : mapGet a.machines machineId = some m)
    (ht : mapGet ((mapGet a.transitions machineId).getD [])
      (m.currentState ++ ":" ++ event) = some (.handler f)) :
    ((f m.context payload).context = none →
      sendContext a machineId event payload now = some m.context) ∧
    (∀ c : Ctx, (f m.context payload).context = some c →
      sendContext a machineId event payload now =
        some (ctxMerge m.context c) ∧
      ∀ k, ctxGet (ctxMerge m.context c) k =
        match ctxGet c k with
        | some v => some v
        | none => ctxGet m.context k) ∧
    ((f m.context payload).state = none →
      sendToState a machineId event payload now = some m.currentState) := by
  unfold sendContext sendToState send
  simp only [hm, ht]
  refine ⟨?_, ?_, ?_⟩
  · intro hc
    simp only [hc]
    rw [mapGet_mapSet_self]
    rfl
  · intro c hc
    simp only [hc]
    rw [mapGet_mapSet_self]
    exact ⟨rfl, fun k => ctxGet_ctxMerge m.context c k⟩
  · intro hs
    simp only [hs]
    rfl

/-- Witness for C4: one handler patching the context (keeping `x`,
overriding `y`, adding `z`) with no `state` field, and one handler with
no `context` field. -/
theorem send_handler_semantics_witness :
    sendContext fixAdapterC4 "m" "PAY" none 6 =
      some (ctxMerge fixMachineC4.context [("y", 5), ("z", 9)]) ∧
    ctxGet (ctxMerge fixMachineC4.context [("y", 5), ("z", 9)]) "y" =
      some 5 ∧
    ctxGet (ctxMerge fixMachineC4.context [("y", 5), ("z", 9)]) "x" =
      some 1 ∧
    sendToState fixAdapterC4 "m" "PAY" none 6 = some "cart" ∧
    sendContext fixAdapterC4b "m" "PAY" none 6 = some fixMachineC4.context :=
  have h4 := send_handler_semantics fixAdapterC4 "m" "PAY" none 6
    fixMachineC4 fixHandlerC4 (by decide) rfl
  have h4b := send_handler_semantics fixAdapterC4b "m" "PAY" none 6
    fixMachineC4 fixHandlerC4b (by decide) rfl
  ⟨(h4.2.1 [("y", 5), ("z", 9)] rfl).1,
   ((h4.2.1 [("y", 5), ("z", 9)] rfl).2 "y").trans (by decide),
   ((h4.2.1 [("y", 5), ("z", 9)] rfl).2 "x").trans (by decide),
   h4.2.2 rfl,
   h4b.1 rfl⟩

/-- Claim C7: on a successful `send`, every registered listener is
invoked, synchronously and in registration order, whether or not
earlier listeners raised (their errors are caught per listener), and
`send` still returns its `success = true` result. -/
theorem send_notifies_all (a : Adapter) (machineId event : String)
    (payload : Option String) (now : Nat) (m : Machine) (t : Transition)
    (cbs : List Listener)
    (hm : mapGet a.machines machineId = some m)
    (ht : mapGet ((mapGet a.transitions machineId).getD [])
      (m.currentState ++ ":" ++ event) = some t)
    (hc : mapGet a.stateCallbacks machineId = some cbs) :
    (sendOutcome a machineId event payload now).map
        (fun x => x.1.success) = some true ∧
    (sendOutcome a machineId event payload now).map
        (fun x => x.2.map Prod.fst) = some (cbs.map Listener.lid) ∧
    ∃ cd : ChangeData, (sendOutcome a machineId event payload now).map
        (fun x => x.2) = some (cbs.map (fun l => (l.lid, runOk l cd))) := by
  unfold sendOutcome send
  simp only [hm, ht, hc, Option.getD_some]
  refine ⟨rfl, ?_, ?_⟩
  · simp [List.map_map, Function.comp]
  · exact ⟨_, rfl⟩

/-- Witness for C7: two listeners, the first raising; both appear in
the notification log in order, the first marked caught, and the send
succeeds. -/
theorem send_notifies_all_witness :
    (sendOutcome fixAdapterC7 "m" "GO" none 4).map
        (fun x => x.1.success) = some true ∧
    (sendOutcome fixAdapterC7 "m" "GO" none 4).map
        (fun x => x.2.map Prod.fst) = some [1, 2] ∧
    (sendOutcome fixAdapterC7 "m" "GO" none 4).map (fun x => x.2) =
      some [(1, false), (2, true)] :=
  have h := send_notifies_all fixAdapterC7 "m" "GO" none 4 fixMachineC7
    (.target "run") [fixListenerBoom, fixListenerTwo] (by decide) rfl rfl
  ⟨h.1, h.2.1.trans (by decide), by decide⟩

/-- A fold whose step preserves a projection preserves it overall. -/
theorem foldl_proj_eq {β γ : Type} (g : Adapter → γ)
    (f : Adapter → β → Adapter) (hf : ∀ x b, g (f x b) = g x) :
    ∀ (l : List β) (x : Adapter), g (l.foldl f x) = g x := by
  intro l
  induction l with
  | nil => intro x; rfl
  | cons b bs ih => intro x; rw [List.foldl_cons, ih, hf]

/-- One `registerTransition` step inside `registerMachine` leaves the
machines map unchanged. -/
theorem regStep_machines (machineId f e : String) (t : Transition)
    (x : Adapter) :
    (match registerTransition x machineId f e t with
     | .ok a2 => a2
     | .error _ => x).machines = x.machines := by
  unfold registerTransition
  cases h : mapGet x.transitions machineId <;> rfl

/-- One `registerTransition` step inside `registerMachine` leaves the
listener map unchanged. -/
theorem regStep_callbacks (machineId f e : String) (t : Transition)
    (x : Adapter) :
    (match registerTransition x machineId f e t with
     | .ok a2 => a2
     | .error _ => x).stateCallbacks = x.stateCallbacks := by
  unfold registerTransition
  cases h : mapGet x.transitions machineId <;> rfl

/-- `registerMachine` replaces the machines entry with the fresh
machine built from the configuration. -/
theorem registerMachine_machines (a : Adapter) (machineId : String)
    (config : Config) (now : Nat) :
    (registerMachine a machineId config now).machines =
      mapSet a.machines machineId (machineOfConfig machineId config now) := by
  unfold registerMachine
  cases hc : config.transitions with
  | none => rfl
  | some ts =>
    exact foldl_proj_eq Adapter.machines _
      (fun x fe => foldl_proj_eq Adapter.machines _
        (fun y ee => regStep_machines machineId fe.1 ee.1 ee.2 y) fe.2 x)
      ts _

/-- `registerMachine` replaces the listener entry with the empty
list. -/
theorem registerMachine_callbacks (a : Adapter) (machineId : String)
    (config : Config) (now : Nat) :
    (registerMachine a machineId config now).stateCallbacks =
      mapSet a.stateCallbacks machineId [] := by
  unfold registerMachine
  cases hc : config.transitions with
  | none => rfl
  | some ts =>
    exact foldl_proj_eq Adapter.stateCallbacks _
      (fun x fe => foldl_proj_eq Adapter.stateCallbacks _
        (fun y ee => regStep_callbacks machineId fe.1 ee.1 ee.2 y) fe.2 x)
      ts _

/-- Registering the nested configuration transitions builds, under the
machine's id, exactly the flattened table fold. -/
theorem regInner_table (evs : List (String × Transition))
    (machineId f : String) :
    ∀ (x : Adapter) (tbl : List (String × Transition)),
    mapGet x.transitions machineId = some tbl →
    mapGet ((evs.foldl (fun acc2 ee =>
        match registerTransition acc2 machineId f ee.1 ee.2 with
        | .ok a2 => a2
        | .error _ => acc2) x)).transitions machineId =
      some (evs.foldl (fun acc2 ee =>
        mapSet acc2 (f ++ ":" ++ ee.1) ee.2) tbl) := by
  induction evs with
  | nil => intro x tbl h; exact h
  | cons ee rest ih =>
    intro x tbl h
    rw [List.foldl_cons, List.foldl_cons]
    have hstep : (match registerTransition x machineId f ee.1 ee.2 with
        | .ok a2 => a2
        | .error _ => x) =
        { x with transitions := (mapSet x.transitions machineId
            (mapSet tbl (f ++ ":" ++ ee.1) ee.2)) } := by
      unfold registerTransition
      simp only [h]
    rw [hstep]
    exact ih _ _ (mapGet_mapSet_self _ _ _)

/-- Outer fold version of `regInner_table`. -/
theorem regOuter_table (ts : List (String × List (String × Transition)))
    (machineId : String) :
    ∀ (x : Adapter) (tbl : List (String × Transition)),
    mapGet x.transitions machineId = some tbl →
    mapGet ((ts.foldl (fun acc fromEntry =>
        fromEntry.2.foldl (fun acc2 evEntry =>
          match registerTransition acc2 machineId fromEntry.1 evEntry.1
              evEntry.2 with
          | .ok a2 => a2
          | .error _ => acc2) acc) x)).transitions machineId =
      some (ts.foldl (fun acc fromEntry =>
        fromEntry.2.foldl (fun acc2 evEntry =>
          mapSet acc2 (fromEntry.1 ++ ":" ++ evEntry.1) evEntry.2) acc)
        tbl) := by
  induction ts with
  | nil => intro x tbl h; exact h
  | cons fe rest ih =>
    intro x tbl h
    rw [List.foldl_cons, List.foldl_cons]
    exact ih _ _ (regInner_table fe.2 machineId fe.1 x tbl h)

/-- `registerMachine` stores, under the machine's id, exactly the table
flattened from the new configuration (independently of any previous
table for that id). -/
theorem registerMachine_table (a : Adapter) (machineId : String)
    (config : Config) (now : Nat) :
    mapGet (registerMachine a machineId config now).transitions machineId =
      some (tableOfConfig config) := by
  unfold registerMachine tableOfConfig
  cases hc : config.transitions with
  | none => exact mapGet_mapSet_self _ _ _
  | some ts => exact regOuter_table ts machineId _ [] (mapGet_mapSet_self _ _ _)

/-- Claim C6: re-registering an identifier replaces the machine record
with the one built from the new configuration, replaces its transition
table with exactly the flattening of the new configuration (no entry of
the previous table survives), and resets the listener list to empty, so
a subsequent `send` on the re-registered machine invokes no previously
registered listener (its notification log is empty whether the send
succeeds, no-ops, or throws). -/
theorem registerMachine_replaces (a : Adapter) (machineId : String)
    (config : Config) (now : Nat) (m0 : Machine)
    (_hm0 : mapGet a.machines machineId = some m0) :
    mapGet (registerMachine a machineId config now).machines machineId =
      some (machineOfConfig machineId config now) ∧
    mapGet (registerMachine a machineId config now).transitions machineId =
      some (tableOfConfig config) ∧
    mapGet (registerMachine a machineId config now).stateCallbacks
      machineId = some [] ∧
    (∀ event : String, ∀ payload : Option String, ∀ now2 : Nat,
      ((sendOutcome (registerMachine a machineId config now) machineId event
          payload now2).map (fun x => x.2)).getD [] = []) := by
  have h1 : mapGet (registerMachine a machineId config now).machines
      machineId = some (machineOfConfig machineId config now) := by
    rw [registerMachine_machines]
    exact mapGet_mapSet_self _ _ _
  have h3 : mapGet (registerMachine a machineId config now).stateCallbacks
      machineId = some [] := by
    rw [registerMachine_callbacks]
    exact mapGet_mapSet_self _ _ _
  refine ⟨h1, registerMachine_table a machineId config now, h3, ?_⟩
  intro event payload now2
  unfold sendOutcome send
  simp only [h1, h3, Option.getD_some]
  cases ht : mapGet ((mapGet (registerMachine a machineId config
      now).transitions machineId).getD [])
      ((machineOfConfig machineId config now).currentState ++ ":" ++ event)
      with
  | none => simp [ht]
  | some t => simp [ht]

/-- Witness for C6: a machine registered with one configuration and one
listener (`lid = 7`), then re-registered with a different
configuration; the old listener list is gone and a successful send on
the new machine notifies nobody. -/
theorem registerMachine_replaces_witness :
    mapGet (registerMachine fixAdapterC6 "m" fixCfgB 1).machines "m" =
      some (machineOfConfig "m" fixCfgB 1) ∧
    mapGet (registerMachine fixAdapterC6 "m" fixCfgB 1).transitions "m" =
      some (tableOfConfig fixCfgB) ∧
    mapGet (registerMachine fixAdapterC6 "m" fixCfgB 1).stateCallbacks "m" =
      some [] ∧
    ((sendOutcome (registerMachine fixAdapterC6 "m" fixCfgB 1) "m" "ON" none
        2).map (fun x => x.2)).getD [] = [] :=
  have h := registerMachine_replaces fixAdapterC6 "m" fixCfgB 1
    (machineOfConfig "m" fixCfgA 0) (by decide)
  ⟨h.1, h.2.1, h.2.2.1, h.2.2.2 "ON" none 2⟩

/-- The capped history never exceeds 100 records. -/
theorem capLength (l : List HistEntry) :
    (if l.length > 100 then l.drop (l.length - 100) else l).length ≤ 100 := by
  split
  · rw [List.length_drop]
    omega
  · omega

/-- `histOk` unpacked to a membership statement. -/
theorem histOk_iff (a : Adapter) :
    histOk a = true ↔ ∀ p ∈ a.machines, p.2.history.length ≤ 100 := by
  unfold histOk
  rw [List.all_eq_true]
  constructor
  · intro h p hp
    exact of_decide_eq_true (h p hp)
  · intro h p hp
    exact decide_eq_true (h p hp)

/-- A `send` call preserves the history bound. -/
theorem send_histOk (a : Adapter) (machineId event : String)
    (payload : Option String) (now : Nat) (h : histOk a = true) :
    histOk (applyOp a (.sendEvent machineId event payload now)) = true := by
  unfold applyOp send
  cases hm : mapGet a.machines machineId with
  | none =>
    simp only [hm]
    exact h
  | some m =>
    simp only [hm]
    cases ht : mapGet ((mapGet a.transitions machineId).getD [])
        (m.currentState ++ ":" ++ event) with
    | none =>
      simp only [ht]
      exact h
    | some t =>
      simp only [ht]
      rw [histOk_iff] at h ⊢
      intro p hp
      rcases mem_mapSet hp with h2 | h2
      · rw [h2]
        exact capLength _
      · exact h p h2

/-- Every adapter operation preserves the history bound. -/
theorem applyOp_histOk (a : Adapter) (op : Op) (h : histOk a = true) :
    histOk (applyOp a op) = true := by
  cases op with
  | register machineId config now =>
    rw [histOk_iff] at h ⊢
    intro p hp
    rw [show (applyOp a (.register machineId config now)).machines =
        mapSet a.machines machineId (machineOfConfig machineId config now)
      from registerMachine_machines a machineId config now] at hp
    rcases mem_mapSet hp with h2 | h2
    · rw [h2]
      exact Nat.zero_le 100
    · exact h p h2
  | regTransition machineId fromState event t =>
    rw [histOk_iff] at h ⊢
    intro p hp
    have hs : (applyOp a (.regTransition machineId fromState event
        t)).machines = a.machines :=
      regStep_machines machineId fromState event t a
    rw [hs] at hp
    exact h p hp
  | sendEvent machineId event payload now =>
    exact send_histOk a machineId event payload now h
  | updateCtx machineId updates =>
    show histOk (updateContext a machineId updates) = true
    unfold updateContext
    cases hm : mapGet a.machines machineId with
    | none => exact h
    | some m =>
      simp only [hm]
      rw [histOk_iff] at h ⊢
      intro p hp
      rcases mem_mapSet hp with h2 | h2
      · rw [h2]
        exact h (machineId, m) (mapGet_mem hm)
      · exact h p h2
  | onChange machineId cb =>
    show histOk (onStateChange a machineId cb) = true
    unfold onStateChange
    cases hm : mapGet a.stateCallbacks machineId with
    | none => exact h
    | some cbs =>
      simp only [hm]
      exact h
  | offChange machineId lid =>
    show histOk (offStateChange a machineId lid) = true
    unfold offStateChange
    cases hm : mapGet a.stateCallbacks machineId with
    | none => exact h
    | some cbs =>
      simp only [hm]
      exact h
  | resetMachine machineId clearHistory =>
    show histOk (reset a machineId clearHistory) = true
    unfold reset
    cases hm : mapGet a.machines machineId with
    | none => exact h
    | some m =>
      simp only [hm]
      rw [histOk_iff] at h ⊢
      intro p hp
      rcases mem_mapSet hp with h2 | h2
      · rw [h2]
        show (if clearHistory = true then [] else m.history).length ≤ 100
        split
        · exact Nat.zero_le 100
        · exact h (machineId, m) (mapGet_mem hm)
      · exact h p h2
  | unregister machineId =>
    show histOk (unregisterMachine a machineId) = true
    rw [histOk_iff] at h ⊢
    intro p hp
    exact h p (mem_mapDelete hp)

/-- Any operation sequence from the fresh adapter keeps every history
within the bound. -/
theorem opsFold_histOk (ops : List Op) :
    histOk (ops.foldl applyOp emptyAdapter) = true := by
  have hstep : ∀ (l : List Op) (x : Adapter), histOk x = true →
      histOk (l.foldl applyOp x) = true := by
    intro l
    induction l with
    | nil => intro x hx; exact hx
    | cons o os ih =>
      intro x hx
      rw [List.foldl_cons]
      exact ih _ (applyOp_histOk x o hx)
  exact hstep ops emptyAdapter rfl

/-- Appending to a full 100-record history and capping drops exactly
the oldest record. -/
theorem cap_full (l : List HistEntry) (e : HistEntry) (h : l.length = 100) :
    (if (l ++ [e]).length > 100 then
      (l ++ [e]).drop ((l ++ [e]).length - 100)
    else (l ++ [e])) = l.drop 1 ++ [e] := by
  have h1 : (l ++ [e]).length = 101 := by simp [h]
  rw [if_pos (by rw [h1]; omega), h1]
  cases l with
  | nil => simp at h
  | cons c cs => simp

/-- A successful `send` on a machine with a full history drops exactly
the oldest record and appends the new one at the end. -/
theorem send_fifo (a : Adapter) (machineId event : String)
    (payload : Option String) (now : Nat) (m : Machine) (t : String)
    (hm : mapGet a.machines machineId = some m)
    (hlen : m.history.length = 100)
    (hts : sendToState a machineId event payload now = some t)
    (hsucc : (sendOutcome a machineId event payload now).map
        (fun x => x.1.success) = some true) :
    sendHistories a machineId event payload now =
      some (m.history.drop 1 ++
        [⟨m.currentState, t, event, payload, now⟩]) := by
  unfold sendHistories
  unfold sendToState at hts
  unfold sendOutcome at hsucc
  unfold send at hts hsucc ⊢
  simp only [hm] at hts hsucc ⊢
  cases ht : mapGet ((mapGet a.transitions machineId).getD [])
      (m.currentState ++ ":" ++ event) with
  | none =>
    simp only [ht] at hsucc
    simp at hsucc
  | some tr =>
    simp only [ht] at hts ⊢
    rw [Option.some_inj] at hts
    subst hts
    rw [mapGet_mapSet_self]
    simp only [Option.map_some']
    rw [Option.some_inj]
    exact cap_full m.history _ hlen

/-- Claim C2: across every operation sequence from a fresh adapter,
every registered machine's history holds at most 100 records; and a
successful `send` on a machine whose history is full (100 records)
evicts exactly the oldest record, keeping the remaining 99 in order and
appending the new record at the end. -/
theorem history_bounded_fifo :
    (∀ ops : List Op, histOk (ops.foldl applyOp emptyAdapter) = true) ∧
    (∀ (a : Adapter) (machineId event : String) (payload : Option String)
        (now : Nat) (m : Machine) (t : String),
      mapGet a.machines machineId = some m →
      m.history.length = 100 →
      sendToState a machineId event payload now = some t →
      (sendOutcome a machineId event payload now).map
          (fun x => x.1.success) = some true →
      sendHistories a machineId event payload now =
        some (m.history.drop 1 ++
          [⟨m.currentState, t, event, payload, now⟩])) :=
  ⟨opsFold_histOk,
   fun a machineId event payload now m t hm hlen hts hsucc =>
     send_fifo a machineId event payload now m t hm hlen hts hsucc⟩

/-- Witness for C2: a machine with exactly 100 history records; a
successful send keeps the bound and the survivors are the 99 newest old
records, in order, plus the new one. -/
theorem history_bounded_fifo_witness :
    histOk ([Op.register "m" emptyConfig 0].foldl applyOp emptyAdapter) =
      true ∧
    sendHistories fixAdapterC2 "m" "GO" none 55 =
      some (fixMachineC2.history.drop 1 ++ [⟨"s0", "run", "GO", none, 55⟩]) :=
  ⟨history_bounded_fifo.1 [Op.register "m" emptyConfig 0],
   history_bounded_fifo.2 fixAdapterC2 "m" "GO" none 55 fixMachineC2 "run"
     (by decide) (by decide) (by decide) (by decide)⟩

end MachineAdapter
